import Mathlib

/-!
Verification of the relay-sequencer core of the tiger_programmer repository.

The repository drives a bank of 10 relays through a shared 16-bit GPIO word
(active low: bit = 0 means relay energized/ON, bit = 1 means de-energized/OFF).
Two near-identical GUI variants exist: `relay_control.py` (PyQt) and `Gui.py`
(Tkinter).  Hardware activity of each worker routine is modelled as a pure
state transformer on the relay word that also returns the ordered list of
hardware events it emits (GPIO writes and sleeps, with sleep durations in
milliseconds).  The lock-protected read-modify-write blocks of the Python code
execute atomically and in program order on a single worker, so the event list
is exactly the order of hardware writes of one invocation.
-/

/-! ## Definitions: relay word and worker routines -/

/-- One hardware-level event emitted by a worker routine: a GPIO write of the
relay word, or a sleep of the given number of milliseconds. -/
inductive Event where
  | write (w : Nat)
  | sleep (ms : Nat)
deriving DecidableEq, Repr

/-- The GPIO writes of an event trace, in emission order. -/
def writesOf : List Event → List Nat
  | [] => []
  | Event.write w :: es => w :: writesOf es
  | Event.sleep _ :: es => writesOf es

/-- Mask of the two guard relays R0 and R9
(`(1 << RELAY_PINS["0"]) | (1 << RELAY_PINS["9"])`). -/
def guardMask : Nat := (1 <<< 0) ||| (1 <<< 9)

/-- Python's `s & ~m` on a nonnegative int: clear of `s` every bit set in `m`.
Encoded as `s ^^^ (s &&& m)`, which the kernel evaluates directly; the theorem
`clearBits_eq_ldiff` below certifies it equals `Nat.ldiff s m`. -/
def clearBits (s m : Nat) : Nat := s ^^^ (s &&& m)

/-- `relay_control.RelayControlApp._toggle_relay_thread`: clear bit `pin` of the
shared word and write (relay ON), sleep for the configured duration, set the bit
and write (relay OFF). -/
def toggleRelayThread (d pin : Nat) (s : Nat) : Nat × List Event :=
  (clearBits s (1 <<< pin) ||| (1 <<< pin),
   [Event.write (clearBits s (1 <<< pin)), Event.sleep d,
    Event.write (clearBits s (1 <<< pin) ||| (1 <<< pin))])

/-- Inner digit loop shared verbatim by `_programming_mode_thread` and
`_sequence_mode_thread` (both files): for each relay digit, clear its bit and
write, sleep the configured duration `d`, set the bit and write, sleep 0.1 s. -/
def pulsesFrom (d : Nat) : List Nat → Nat → Nat × List Event
  | [], s => (s, [])
  | k :: rest, s =>
      ((pulsesFrom d rest (clearBits s (1 <<< k) ||| (1 <<< k))).1,
       Event.write (clearBits s (1 <<< k)) :: Event.sleep d ::
         Event.write (clearBits s (1 <<< k) ||| (1 <<< k)) :: Event.sleep 100 ::
         (pulsesFrom d rest (clearBits s (1 <<< k) ||| (1 <<< k))).2)

/-- `_sequence_mode_thread(mode_name, sequence)` (identical in
`relay_control.py` and `Gui.py`): clear guard relays R0 and R9 and write, sleep
0.3 s, pulse each digit of `sequence` in order (configured duration, 0.1 s
settle), then set the guard relays and write. -/
def sequenceModeThread (d : Nat) (ds : List Nat) (s : Nat) : Nat × List Event :=
  ((pulsesFrom d ds (clearBits s guardMask)).1 ||| guardMask,
   Event.write (clearBits s guardMask) :: Event.sleep 300 ::
     ((pulsesFrom d ds (clearBits s guardMask)).2
       ++ [Event.write ((pulsesFrom d ds (clearBits s guardMask)).1 ||| guardMask)]))

/-- `_programming_mode_thread` (both files): guard on, 0.3 s, pulse digits
2,1,2,1 with the configured duration and 0.1 s settles, guard off. -/
def programmingModeThread (d : Nat) (s : Nat) : Nat × List Event :=
  ((pulsesFrom d [2, 1, 2, 1] (clearBits s guardMask)).1 ||| guardMask,
   Event.write (clearBits s guardMask) :: Event.sleep 300 ::
     ((pulsesFrom d [2, 1, 2, 1] (clearBits s guardMask)).2
       ++ [Event.write ((pulsesFrom d [2, 1, 2, 1] (clearBits s guardMask)).1 ||| guardMask)]))

/-- `relay_control.RelayControlApp._single_press_mode_thread(mode_name, relay_key)`.
The guard bracket is applied only when `mode_name` starts with "Exit Prog Mode"
(source comment: "Only use R0 & R9 for Exit Prog Mode"); `isExitProg` is that
test.  Otherwise the routine emits just the single pulse and the 0.1 s settle. -/
def singlePressModeThread (isExitProg : Bool) (d pin : Nat) (s : Nat) : Nat × List Event :=
  if isExitProg then
    (clearBits (clearBits s guardMask) (1 <<< pin) ||| (1 <<< pin) ||| guardMask,
     [Event.write (clearBits s guardMask), Event.sleep 300,
      Event.write (clearBits (clearBits s guardMask) (1 <<< pin)), Event.sleep d,
      Event.write (clearBits (clearBits s guardMask) (1 <<< pin) ||| (1 <<< pin)),
      Event.sleep 100,
      Event.write (clearBits (clearBits s guardMask) (1 <<< pin) ||| (1 <<< pin) ||| guardMask)])
  else
    (clearBits s (1 <<< pin) ||| (1 <<< pin),
     [Event.write (clearBits s (1 <<< pin)), Event.sleep d,
      Event.write (clearBits s (1 <<< pin) ||| (1 <<< pin)), Event.sleep 100])

/-- `Gui.RelayControlApp._single_press_mode_thread` (Tkinter variant): always
brackets the single pulse with the guard relays. -/
def singlePressModeThreadGui (d pin : Nat) (s : Nat) : Nat × List Event :=
  (clearBits (clearBits s guardMask) (1 <<< pin) ||| (1 <<< pin) ||| guardMask,
   [Event.write (clearBits s guardMask), Event.sleep 300,
    Event.write (clearBits (clearBits s guardMask) (1 <<< pin)), Event.sleep d,
    Event.write (clearBits (clearBits s guardMask) (1 <<< pin) ||| (1 <<< pin)),
    Event.sleep 100,
    Event.write (clearBits (clearBits s guardMask) (1 <<< pin) ||| (1 <<< pin) ||| guardMask)])

/-- `_double_press_mode_thread(mode_name, relay_key1, relay_key2)` (both files):
clear both relay bits in one write, sleep the configured duration, set both
bits in one write. -/
def doublePressModeThread (d k1 k2 : Nat) (s : Nat) : Nat × List Event :=
  (clearBits s ((1 <<< k1) ||| (1 <<< k2)) ||| ((1 <<< k1) ||| (1 <<< k2)),
   [Event.write (clearBits s ((1 <<< k1) ||| (1 <<< k2))), Event.sleep d,
    Event.write (clearBits s ((1 <<< k1) ||| (1 <<< k2)) ||| ((1 <<< k1) ||| (1 <<< k2)))])

/-- `relay_control.scene_mode(scene_digit)`: single press, mode name
"Scene Mode (digit)" does not start with "Exit Prog Mode", so no guard bracket. -/
def sceneMode (d digit : Nat) (s : Nat) : Nat × List Event :=
  singlePressModeThread false d digit s

/-- `relay_control.channel_mode`: single press of digit 2, no guard bracket. -/
def channelMode (d : Nat) (s : Nat) : Nat × List Event :=
  singlePressModeThread false d 2 s

/-- `relay_control.level_mode`: single press of digit 3, no guard bracket. -/
def levelMode (d : Nat) (s : Nat) : Nat × List Event :=
  singlePressModeThread false d 3 s

/-- `relay_control.fade_short_mode`: single press of digit 4, no guard bracket. -/
def fadeShortMode (d : Nat) (s : Nat) : Nat × List Event :=
  singlePressModeThread false d 4 s

/-- `relay_control.fade_long_mode`: single press of digit 5, no guard bracket. -/
def fadeLongMode (d : Nat) (s : Nat) : Nat × List Event :=
  singlePressModeThread false d 5 s

/-- `relay_control.circuit_activation`: single press of digit 6, no guard bracket. -/
def circuitActivation (d : Nat) (s : Nat) : Nat × List Event :=
  singlePressModeThread false d 6 s

/-- `relay_control.copy_mode`: single press of digit 7, no guard bracket. -/
def copyMode (d : Nat) (s : Nat) : Nat × List Event :=
  singlePressModeThread false d 7 s

/-- `relay_control.exit_programming_mode`: single press of digit 8 with mode
name "Exit Prog Mode", hence with the guard bracket. -/
def exitProgrammingMode (d : Nat) (s : Nat) : Nat × List Event :=
  singlePressModeThread true d 8 s

/-- `relay_control.reset_mode` worker:
`_sequence_mode_thread("Reset", ["4","5","6","6"])`. -/
def resetMode (d : Nat) (s : Nat) : Nat × List Event :=
  sequenceModeThread d [4, 5, 6, 6] s

/-- `zone_left` worker (identical digit list in both files):
`_sequence_mode_thread("Zone Left", ["8","7","1","1"])`. -/
def zoneLeft (d : Nat) (s : Nat) : Nat × List Event :=
  sequenceModeThread d [8, 7, 1, 1] s

/-- `relay_control.zone_right` worker:
`_sequence_mode_thread("Zone Right", ["8","7","2","2"])`. -/
def zoneRightRc (d : Nat) (s : Nat) : Nat × List Event :=
  sequenceModeThread d [8, 7, 2, 2] s

/-- `Gui.zone_right` worker (Tkinter variant):
`_sequence_mode_thread("Zone Right", ["8","7","1","2"])`. -/
def zoneRightGui (d : Nat) (s : Nat) : Nat × List Event :=
  sequenceModeThread d [8, 7, 1, 2] s

/-- `relay_control.RelayControlApp.program_zone(zone)`: the fixed Zone-Left /
Zone-Right composite.  Zone Left: guard on, 0.5 s, pulses of relays 8 and 7
(0.5 s hold, 0.3 s settle), two pulses of relay 1 (0.5 s hold, 0.3 s waits),
guard off, zone-digit pulse with the configured duration, 1 s wait.  Zone
Right: guard on, 0.5 s, pulses of relays 8 and 7, two pulses of relay 2 (no
wait between them, 0.3 s after), guard off, 0.3 s, zone-digit pulse, 2 s + 2 s
waits. -/
def programZone (d z : Nat) (s : Nat) : Nat × List Event :=
  let g1 := clearBits s guardMask
  let p1 := toggleRelayThread 500 8 g1
  let p2 := toggleRelayThread 500 7 p1.1
  let p3 := toggleRelayThread 500 1 p2.1
  let p4 := toggleRelayThread 500 1 p3.1
  let g1off := p4.1 ||| guardMask
  let p5 := toggleRelayThread d z g1off
  let g2 := clearBits p5.1 guardMask
  let q1 := toggleRelayThread 500 8 g2
  let q2 := toggleRelayThread 500 7 q1.1
  let q3 := toggleRelayThread 500 2 q2.1
  let q4 := toggleRelayThread 500 2 q3.1
  let g2off := q4.1 ||| guardMask
  let q5 := toggleRelayThread d z g2off
  (q5.1,
   Event.write g1 :: Event.sleep 500 ::
     (p1.2 ++ [Event.sleep 300] ++ p2.2 ++ [Event.sleep 300] ++
      p3.2 ++ [Event.sleep 300] ++ p4.2 ++ [Event.sleep 300] ++
      [Event.write g1off] ++ p5.2 ++ [Event.sleep 1000] ++
      (Event.write g2 :: Event.sleep 500 ::
        (q1.2 ++ [Event.sleep 300] ++ q2.2 ++ [Event.sleep 300] ++
         q3.2 ++ q4.2 ++ [Event.sleep 300] ++
         [Event.write g2off, Event.sleep 300] ++ q5.2 ++
         [Event.sleep 2000, Event.sleep 2000]))))

/-- Shape predicate: `ws` is the inner write trace of pulsing digits `ds` in
order — per digit, one write with that relay's bit clear (ON) immediately
followed by one write with it set again (OFF). -/
inductive PulseSeq : List Nat → List Nat → Prop where
  | nil : PulseSeq [] []
  | cons {k : Nat} {ds : List Nat} {w1 w2 : Nat} {ws : List Nat} :
      w1.testBit k = false → w2.testBit k = true → PulseSeq ds ws →
      PulseSeq (k :: ds) (w1 :: w2 :: ws)

/-! ## Definitions: channel table and composite sequences
(`levels_sheet_page.py`) -/

/-- One row of the channel/levels table, as the composite sequences read it:
the Zone combobox digit and the ten scene Spinbox levels (each 0–99, column
index 0–8 for scene digits 1–9, index 9 for scene digit 0). -/
structure ChannelRow where
  zone : Nat
  scenes : List Nat
deriving DecidableEq, Repr

/-- `scene_index = 9 if scene_digit == "0" else int(scene_digit) - 1`. -/
def sceneIndex (sceneDigit : Nat) : Nat := if sceneDigit = 0 then 9 else sceneDigit - 1

/-- Python's `enumerate(rows, start=i)`. -/
def enumFrom {α : Type} : Nat → List α → List (Nat × α)
  | _, [] => []
  | i, r :: rs => (i, r) :: enumFrom (i + 1) rs

/-- The `channels_to_program` accumulation loop of
`program_scene_levels_sequence`: scan the rows with 1-based channel numbers and
append `(idx, level)` for each row whose zone matches, where `level` is the
row's scene value at `sceneIndex sceneDigit`. -/
def channelsToProgram (rows : List ChannelRow) (sceneDigit zone : Nat) : List (Nat × Nat) :=
  (enumFrom 1 rows).foldl
    (fun acc p =>
      if p.2.zone = zone then acc ++ [(p.1, p.2.scenes.getD (sceneIndex sceneDigit) 0)]
      else acc)
    []

/-- Decimal digits of `n`, most significant first, via fuel-based recursion so
the kernel can evaluate it (`natDigits` handles the `n = 0` case like `str`). -/
def natDigitsAux : Nat → Nat → List Nat
  | 0, _ => []
  | fuel + 1, n => if n = 0 then [] else natDigitsAux fuel (n / 10) ++ [n % 10]

/-- Decimal digit list of `str(n)`. -/
def natDigits (n : Nat) : List Nat := if n = 0 then [0] else natDigitsAux n n

/-- Python's `str(n).zfill(2)`, as a digit list. -/
def zfill2 (n : Nat) : List Nat :=
  List.replicate (2 - (natDigits n).length) 0 ++ natDigits n

/-- One abstract step of a composite sequence, as issued by
`program_scene_levels_sequence` and `allocate_to_zones_sequence`.  Each step
maps to a relay worker routine via `opEvents` below. -/
inductive SeqOp where
  | exitProg
  | zoneProgram (z : Nat)
  | progMode
  | quickScene
  | quickCircuit
  | quickLevel
  | sceneDigit (k : Nat)
  | circuitDigit (k : Nat)
  | levelDigit (k : Nat)
  | allocDigit (k : Nat)
deriving DecidableEq, Repr

/-- The per-channel body of the `program_scene_levels_sequence` loop: Quick
Circuit, the two zero-padded channel digits, Quick Level, the two zero-padded
level digits. -/
def perChannelOps (p : Nat × Nat) : List SeqOp :=
  SeqOp.quickCircuit :: ((zfill2 p.1).map SeqOp.circuitDigit
    ++ SeqOp.quickLevel :: (zfill2 p.2).map SeqOp.levelDigit)

/-- `levels_sheet_page.program_scene_levels_sequence(scene_digit, zone)` as its
ordered step list: Exit Prog Mode, zone programming, Enter Prog Mode, Quick
Scene, the scene digit, then the per-channel loop over `channels_to_program`,
then Exit Prog Mode. -/
def programSceneLevelsSequence (rows : List ChannelRow) (sceneDigit zone : Nat) : List SeqOp :=
  SeqOp.exitProg :: SeqOp.zoneProgram zone :: SeqOp.progMode :: SeqOp.quickScene ::
    SeqOp.sceneDigit sceneDigit ::
    ((channelsToProgram rows sceneDigit zone).flatMap perChannelOps ++ [SeqOp.exitProg])

/-- The per-row loop of `allocate_to_zones_sequence`: for every row in table
order (1-based channel numbers), the two zero-padded channel digits then the
allocation digit — "1" if the row's zone equals the target zone, else "0". -/
def allocLoop (zone : Nat) : Nat → List ChannelRow → List SeqOp
  | _, [] => []
  | idx, r :: rest =>
      ((zfill2 idx).map SeqOp.circuitDigit
        ++ [SeqOp.allocDigit (if r.zone = zone then 1 else 0)])
        ++ allocLoop zone (idx + 1) rest

/-- `levels_sheet_page.allocate_to_zones_sequence(zone)` as its ordered step
list: Exit Prog Mode, zone programming, Enter Prog Mode, the per-row
allocation loop, Exit Prog Mode. -/
def allocateToZonesSequence (rows : List ChannelRow) (zone : Nat) : List SeqOp :=
  SeqOp.exitProg :: SeqOp.zoneProgram zone :: SeqOp.progMode ::
    (allocLoop zone 1 rows ++ [SeqOp.exitProg])

/-- The allocation digits of a step list, in order. -/
def allocDigitsOf (ops : List SeqOp) : List Nat :=
  ops.filterMap fun op =>
    match op with
    | SeqOp.allocDigit a => some a
    | _ => none

/-- Example table for C4: rows with zones 2, 3, 2 and distinct scene levels. -/
def zoneRowsExample : List ChannelRow :=
  [⟨2, [11, 12, 13, 14, 15, 16, 17, 18, 19, 20]⟩,
   ⟨3, [21, 22, 23, 24, 25, 26, 27, 28, 29, 30]⟩,
   ⟨2, [31, 32, 33, 34, 35, 36, 37, 38, 39, 40]⟩]

/-- Example table for C5: three rows with zones 5, 1, 5. -/
def allocRowsExample : List ChannelRow :=
  [⟨5, [90, 70, 50, 30, 99, 99, 99, 99, 99, 0]⟩,
   ⟨1, [90, 70, 50, 30, 99, 99, 99, 99, 99, 0]⟩,
   ⟨5, [90, 70, 50, 30, 99, 99, 99, 99, 99, 0]⟩]

/-! ## Definitions: fallible execution of a composite (for C9)

The sequence workers have no try/finally: the worker calls the relay routines
in order and only after the last step logs the terminal line and re-enables
the triggering button.  A GPIO write that raises aborts the worker thread at
that point.  `runOps` executes a step list against a budget of successful
hardware writes; once the budget is exhausted the next write raises and
everything after it — including the terminal log and the re-enable — is
skipped. -/

/-- UI-visible happenings of one composite operation. -/
inductive UiEvent where
  | uiDisable
  | uiEnable
  | terminalLog
  | hw (e : Event)
deriving DecidableEq, Repr

/-- Hardware routine of each abstract step (the `rc.…` call the sequence makes). -/
def opEvents (d : Nat) : SeqOp → Nat → Nat × List Event
  | SeqOp.exitProg, s => singlePressModeThread true d 8 s
  | SeqOp.zoneProgram z, s => programZone d z s
  | SeqOp.progMode, s => programmingModeThread d s
  | SeqOp.quickScene, s => doublePressModeThread d 1 5 s
  | SeqOp.quickCircuit, s => doublePressModeThread d 2 6 s
  | SeqOp.quickLevel, s => doublePressModeThread d 3 7 s
  | SeqOp.sceneDigit k, s => singlePressModeThread false d k s
  | SeqOp.circuitDigit k, s => singlePressModeThread false d k s
  | SeqOp.levelDigit k, s => singlePressModeThread false d k s
  | SeqOp.allocDigit k, s => singlePressModeThread false d k s

/-- Run an event list against a budget of successful writes; returns the
remaining budget, the events that actually happened, and whether the whole
list completed (false = a write raised). -/
def runEvents : Nat → List Event → Nat × List Event × Bool
  | b, [] => (b, [], true)
  | b, Event.sleep m :: es =>
      ((runEvents b es).1, Event.sleep m :: (runEvents b es).2.1, (runEvents b es).2.2)
  | 0, Event.write _ :: _ => (0, [], false)
  | b + 1, Event.write w :: es =>
      ((runEvents b es).1, Event.write w :: (runEvents b es).2.1, (runEvents b es).2.2)

/-- Run a step list in order; a raising write aborts the remaining steps. -/
def runOps (d : Nat) : Nat → Nat → List SeqOp → Nat × Nat × List Event × Bool
  | b, s, [] => (b, s, [], true)
  | b, s, op :: rest =>
      let se := opEvents d op s
      let r := runEvents b se.2
      if r.2.2 then
        let r2 := runOps d r.1 se.1 rest
        (r2.1, r2.2.1, r.2.1 ++ r2.2.2.1, r2.2.2.2)
      else (r.1, se.1, r.2.1, false)

/-- `on_program_scene_levels` + `program_scene_levels_sequence` as one
UI-event trace: disable the Program Scene button, run the composite; only if
every hardware write succeeded, append the terminal
"Programming sequence complete" log line and re-enable the button. -/
def programSceneComposite (d budget s : Nat) (rows : List ChannelRow)
    (sceneDigit zone : Nat) : List UiEvent :=
  let r := runOps d budget s (programSceneLevelsSequence rows sceneDigit zone)
  UiEvent.uiDisable ::
    (r.2.2.1.map UiEvent.hw ++
      if r.2.2.2 then [UiEvent.terminalLog, UiEvent.uiEnable] else [])

/-! ## Definitions: CSV export/import (`levels_sheet_page.py`)

Python strings are modelled as `List Char`.  `splitlines` is modelled as
splitting on `'\n'` — the only separator the generator emits; the clean-field
hypotheses below exclude every character `splitlines` treats as a line break,
so the model agrees with Python on the inputs the theorems quantify over. -/

/-- Python strings, as character lists. -/
abbrev PStr := List Char

/-- The ASCII whitespace stripped by Python's `str.strip()`. -/
def isPySpace (c : Char) : Bool :=
  c = ' ' || c = '\t' || c = '\n' || c = '\r' || c = '\x0b' || c = '\x0c'

/-- Characters Python's `str.splitlines()` treats as line breaks. -/
def isLineBreak (c : Char) : Bool :=
  c = '\n' || c = '\r' || c = '\x0b' || c = '\x0c' ||
  c = '\x1c' || c = '\x1d' || c = '\x1e' || c = '\x85' || c = '\u2028' || c = '\u2029'

/-- Python's `str.strip()`. -/
def trimChars (l : PStr) : PStr :=
  ((l.dropWhile isPySpace).reverse.dropWhile isPySpace).reverse

/-- Python's `str.split(sep)` for a one-character separator. -/
def splitOnChar (c : Char) (l : PStr) : List PStr := l.splitOn c

/-- Python's `sep.join(...)` for a one-character separator. -/
def joinChar (c : Char) (ls : List PStr) : PStr := List.intercalate [c] ls

/-- The character of decimal digit `d`. -/
def digitChar (d : Nat) : Char := Char.ofNat (48 + d)

/-- Python's `str(n)` for a nonnegative int. -/
def charDigits (n : Nat) : PStr := (natDigits n).map digitChar

/-- A character that is neither the cell separator nor any line break. -/
def cleanChar (c : Char) : Bool := !(c = ',') && !(isLineBreak c)

/-- A string field that survives the CSV round trip untouched: comma-free,
line-break-free and fixed by `strip()` (no leading/trailing whitespace). -/
def cleanField (l : PStr) : Bool := l.all cleanChar && (trimChars l == l)

/-- One table row as `read_table_data` reports it (channel numbers are the
1-based positions, kept implicitly by list position here). -/
structure RowData where
  zone : PStr
  dimRef : PStr
  name : PStr
  rowType : PStr
  scenes : List PStr
deriving DecidableEq, Repr

/-- The whole sheet: header entries plus rows. -/
structure SheetTable where
  siteName : PStr
  siteDate : PStr
  rows : List RowData
deriving DecidableEq, Repr

/-- One row as `parse_csv` returns it (`channel` is the raw first cell). -/
structure ParsedRow where
  channel : PStr
  zone : PStr
  dimRef : PStr
  name : PStr
  rowType : PStr
  scenes : List PStr
deriving DecidableEq, Repr

/-- The dictionary `parse_csv` returns. -/
structure ParsedSheet where
  siteName : PStr
  siteDate : PStr
  rows : List ParsedRow
deriving DecidableEq, Repr

/-- The fixed header row: `["Channel","Zone","Dim Ref","Name","Type"] + scene_labels`. -/
def headerCells : List PStr :=
  ["Channel".data, "Zone".data, "Dim Ref".data, "Name".data, "Type".data,
   "Scene 1".data, "Scene 2".data, "Scene 3".data, "Scene 4".data, "Scene 5".data,
   "Scene 6".data, "Scene 7".data, "Scene 8".data, "Scene 9".data, "Scene 0".data]

/-- The 15 cells of one data line:
`[str(channel), zone, dimRef, name, type] + scenes`. -/
def rowCells (idx : Nat) (r : RowData) : List PStr :=
  charDigits idx :: r.zone :: r.dimRef :: r.name :: r.rowType :: r.scenes

/-- The data lines of `generate_csv_data`, one per row, channels numbered from
`idx`. -/
def dataLines : Nat → List RowData → List PStr
  | _, [] => []
  | idx, r :: rest => joinChar ',' (rowCells idx r) :: dataLines (idx + 1) rest

/-- The `lines` list `generate_csv_data` accumulates: the site-name line, the
date line (both padded to 15 cells, the header entries stripped), the header
line, then one line per row. -/
def generatedLines (t : SheetTable) : List PStr :=
  joinChar ',' ("Site Name:".data :: trimChars t.siteName :: List.replicate 13 []) ::
  joinChar ',' ("Date:".data :: trimChars t.siteDate :: List.replicate 13 []) ::
  joinChar ',' headerCells ::
  dataLines 1 t.rows

/-- `generate_csv_data`: `"\n".join(lines)`. -/
def generateCsvData (t : SheetTable) : PStr :=
  joinChar '\n' (generatedLines t)

/-- One data line of `parse_csv`: split on commas, strip every cell, skip the
line when fewer than 15 cells, else build the row entry (cells 5–14 are the
scenes). -/
def parseRow (line : PStr) : Option ParsedRow :=
  let cells := (splitOnChar ',' line).map trimChars
  if cells.length < 15 then none
  else
    some { channel := cells.getD 0 [], zone := cells.getD 1 [], dimRef := cells.getD 2 [],
           name := cells.getD 3 [], rowType := cells.getD 4 [],
           scenes := (cells.drop 5).take 10 }

/-- The body of `parse_csv` after the line filter: require at least 4 lines,
read the second cell of lines 1 and 2 as site name and date (an out-of-range
index raises in Python — modelled as `none`), parse every line after the
header line. -/
def parseCsvLines (lines : List PStr) : Option ParsedSheet :=
  if lines.length < 4 then none
  else
    match (splitOnChar ',' (lines.getD 0 [])).drop 1,
        (splitOnChar ',' (lines.getD 1 [])).drop 1 with
    | c1 :: _, c2 :: _ =>
        some { siteName := trimChars c1, siteDate := trimChars c2,
               rows := (lines.drop 3).filterMap parseRow }
    | _, _ => none

/-- `parse_csv`: keep the non-blank lines of the split text, then parse. -/
def parseCsv (txt : PStr) : Option ParsedSheet :=
  parseCsvLines ((splitOnChar '\n' txt).filter (fun l => trimChars l != []))

/-- The rows `parse_csv` is expected to reproduce from a generated sheet:
every field as in the table, the channel cell being `str` of the 1-based
position. -/
def expectedRows : Nat → List RowData → List ParsedRow
  | _, [] => []
  | idx, r :: rest =>
      { channel := charDigits idx, zone := r.zone, dimRef := r.dimRef,
        name := r.name, rowType := r.rowType, scenes := r.scenes }
        :: expectedRows (idx + 1) rest

/-- Row hypotheses of the round-trip theorem: every string field clean (no
comma, no line break, fixed by `strip()`) and exactly ten scene cells. -/
abbrev rowClean (r : RowData) : Prop :=
  cleanField r.zone = true ∧ cleanField r.dimRef = true ∧ cleanField r.name = true ∧
  cleanField r.rowType = true ∧ r.scenes.length = 10 ∧ ∀ sc ∈ r.scenes, cleanField sc = true

/-- A well-behaved concrete table for the C8 witness. -/
def csvTableExample : SheetTable :=
  { siteName := "Villa".data, siteDate := "2025-01-02".data,
    rows := [{ zone := "2".data, dimRef := "d7".data, name := "Hall".data,
               rowType := "Dimmed".data,
               scenes := ["90".data, "70".data, "50".data, "30".data, "99".data,
                          "99".data, "99".data, "99".data, "99".data, "00".data] }] }

/-- A table whose single row has a name with a leading space — printable and
comma-free, hence inside the domain claimed by C8. -/
def csvTableSpacey : SheetTable :=
  { siteName := "Villa".data, siteDate := "2025-01-02".data,
    rows := [{ zone := "2".data, dimRef := "d7".data, name := " Hall".data,
               rowType := "Dimmed".data,
               scenes := ["90".data, "70".data, "50".data, "30".data, "99".data,
                          "99".data, "99".data, "99".data, "99".data, "00".data] }] }

/-! ## Definitions: debug single-stepping (`levels_sheet_page.py`) -/

/-- The page state the debug gate reads and writes: the `debug_mode` flag, the
`step_ready` event flag, and whether the Next Step button is enabled. -/
structure DebugPageState where
  debugMode : Bool
  stepReady : Bool
  nextStepEnabled : Bool
deriving DecidableEq, Repr

/-- `toggle_debug_mode`: flip the flag; turning on enables the Next Step
button; turning off disables it and sets the `step_ready` event so a waiting
sequence thread is released. -/
def toggleDebugMode (st : DebugPageState) : DebugPageState :=
  if !st.debugMode then
    { st with debugMode := true, nextStepEnabled := true }
  else
    { debugMode := false, nextStepEnabled := false, stepReady := true }

/-- Result of `wait_for_next_step`: either it returned at once, or the calling
sequence thread is suspended on `step_ready.wait()` in the given state. -/
inductive WaitOutcome where
  | completed (st : DebugPageState)
  | suspendedAt (st : DebugPageState)
deriving DecidableEq, Repr

/-- `wait_for_next_step`: outside debug mode return immediately with nothing
changed; in debug mode clear `step_ready` and block on `step_ready.wait()`. -/
def waitForNextStep (st : DebugPageState) : WaitOutcome :=
  if st.debugMode then WaitOutcome.suspendedAt { st with stepReady := false }
  else WaitOutcome.completed st

/-- A thread blocked on `step_ready.wait()` resumes exactly when the event
flag is set. -/
def releasedBy (st : DebugPageState) : Bool := st.stepReady

/-! ## Theorems -/

theorem testBit_clearBits (s m j : Nat) :
    (clearBits s m).testBit j = (s.testBit j && !(m.testBit j)) := by
  simp only [clearBits, Nat.testBit_xor, Nat.testBit_land]
  cases s.testBit j <;> cases m.testBit j <;> rfl

/-- `clearBits` is Python's `s & ~m`, i.e. `Nat.ldiff`. -/
theorem clearBits_eq_ldiff (s m : Nat) : clearBits s m = Nat.ldiff s m :=
  Nat.eq_of_testBit_eq fun j => by rw [testBit_clearBits, Nat.testBit_ldiff]

/-- Bit `j` of the single-bit mask `1 <<< k` is set exactly when `j = k`. -/
theorem testBit_oneShift (k j : Nat) : (1 <<< k).testBit j = decide (j = k) := by
  rw [Nat.shiftLeft_eq, one_mul, Nat.testBit_two_pow]
  exact decide_eq_decide.mpr eq_comm

theorem testBit_guardMask (j : Nat) :
    guardMask.testBit j = (decide (j = 0) || decide (j = 9)) := by
  simp only [guardMask, Nat.testBit_lor, testBit_oneShift]

theorem writesOf_append (a b : List Event) :
    writesOf (a ++ b) = writesOf a ++ writesOf b := by
  induction a with
  | nil => rfl
  | cons e es ih => cases e <;> simp [writesOf, ih]

/-- Claim C1: the pulse worker `_toggle_relay_thread(i)` emits exactly two
writes: first the word with bit `i` cleared (relay ON), then — after the sleep
of the configured duration — the word with bit `i` set back (relay OFF).
Assuming bit `i` is set (OFF) in the pre-state, the second write restores the
pre-state word exactly, so bit `i` is set in the post-state; neither write
changes any bit other than `i`; and bit `i` is clear (ON) only in the first of
the two written words, i.e. only during the interval between the two writes. -/
theorem toggle_relay_pulse_correct (d i s : Nat) (hpre : s.testBit i = true) :
    (toggleRelayThread d i s).2 =
      [Event.write (clearBits s (1 <<< i)), Event.sleep d, Event.write s] ∧
    (clearBits s (1 <<< i)).testBit i = false ∧
    (toggleRelayThread d i s).1 = s ∧
    (∀ j, j ≠ i → (clearBits s (1 <<< i)).testBit j = s.testBit j) := by
  have hrestore : clearBits s (1 <<< i) ||| (1 <<< i) = s := by
    apply Nat.eq_of_testBit_eq
    intro j
    rw [Nat.testBit_lor, testBit_clearBits, testBit_oneShift]
    by_cases h : j = i
    · subst h; simp [hpre]
    · simp [h]
  refine ⟨?_, ?_, ?_, ?_⟩
  · simp only [toggleRelayThread, hrestore]
  · rw [testBit_clearBits, testBit_oneShift]; simp
  · simp only [toggleRelayThread, hrestore]
  · intro j hj
    rw [testBit_clearBits, testBit_oneShift]
    simp [hj]

/-- Witness for C1 at relay 3, duration 0.5 s, pre-state `0xFFFF` (all relays
OFF): the hypothesis holds and the conclusion evaluates on that input. -/
theorem toggle_relay_pulse_correct_witness :
    Nat.testBit 0xFFFF 3 = true ∧
    ((toggleRelayThread 500 3 0xFFFF).2 =
        [Event.write (clearBits 0xFFFF (1 <<< 3)), Event.sleep 500, Event.write 0xFFFF] ∧
      (clearBits 0xFFFF (1 <<< 3)).testBit 3 = false ∧
      (toggleRelayThread 500 3 0xFFFF).1 = 0xFFFF ∧
      (∀ j, j ≠ 3 → (clearBits 0xFFFF (1 <<< 3)).testBit j = Nat.testBit 0xFFFF j)) :=
  ⟨by decide, toggle_relay_pulse_correct 500 3 0xFFFF (by decide)⟩

/-- Claim C7: `_double_press_mode_thread` performs its ON transition as exactly
one write clearing both relay bits simultaneously and its OFF transition as
exactly one write setting both bits simultaneously, with only the sleep of the
configured duration in between — never two separate single-bit writes, and no
other events at all.  Both written words agree with the pre-state on every bit
other than the two pressed relays. -/
theorem double_press_single_write (d k1 k2 s : Nat) :
    (doublePressModeThread d k1 k2 s).2 =
      [Event.write (clearBits s ((1 <<< k1) ||| (1 <<< k2))), Event.sleep d,
       Event.write (clearBits s ((1 <<< k1) ||| (1 <<< k2)) ||| ((1 <<< k1) ||| (1 <<< k2)))] ∧
    (clearBits s ((1 <<< k1) ||| (1 <<< k2))).testBit k1 = false ∧
    (clearBits s ((1 <<< k1) ||| (1 <<< k2))).testBit k2 = false ∧
    (clearBits s ((1 <<< k1) ||| (1 <<< k2)) ||| ((1 <<< k1) ||| (1 <<< k2))).testBit k1 = true ∧
    (clearBits s ((1 <<< k1) ||| (1 <<< k2)) ||| ((1 <<< k1) ||| (1 <<< k2))).testBit k2 = true ∧
    (∀ j, j ≠ k1 → j ≠ k2 →
      (clearBits s ((1 <<< k1) ||| (1 <<< k2))).testBit j = s.testBit j ∧
      (clearBits s ((1 <<< k1) ||| (1 <<< k2)) ||| ((1 <<< k1) ||| (1 <<< k2))).testBit j
        = s.testBit j) := by
  refine ⟨rfl, ?_, ?_, ?_, ?_, ?_⟩
  · rw [testBit_clearBits, Nat.testBit_lor, testBit_oneShift, testBit_oneShift]; simp
  · rw [testBit_clearBits, Nat.testBit_lor, testBit_oneShift, testBit_oneShift]; simp
  · simp only [Nat.testBit_lor, testBit_clearBits, testBit_oneShift]; simp
  · simp only [Nat.testBit_lor, testBit_clearBits, testBit_oneShift]; simp
  · intro j h1 h2
    constructor
    · simp only [testBit_clearBits, Nat.testBit_lor, testBit_oneShift]
      simp [h1, h2]
    · simp only [Nat.testBit_lor, testBit_clearBits, testBit_oneShift]
      simp [h1, h2]

/-- Witness for C7 at the Quick Scene shortcut (relays 1 and 5), duration
0.5 s, pre-state `0xFFFF`: the inner per-bit facts are discharged at `j = 0`. -/
theorem double_press_single_write_witness :
    (doublePressModeThread 500 1 5 0xFFFF).2 =
      [Event.write (clearBits 0xFFFF ((1 <<< 1) ||| (1 <<< 5))), Event.sleep 500,
       Event.write (clearBits 0xFFFF ((1 <<< 1) ||| (1 <<< 5)) ||| ((1 <<< 1) ||| (1 <<< 5)))] ∧
    (clearBits 0xFFFF ((1 <<< 1) ||| (1 <<< 5))).testBit 0 = Nat.testBit 0xFFFF 0 :=
  ⟨(double_press_single_write 500 1 5 0xFFFF).1,
   ((double_press_single_write 500 1 5 0xFFFF).2.2.2.2.2 0 (by decide) (by decide)).1⟩

theorem pulsesFrom_pulseSeq (d : Nat) (ds : List Nat) (s : Nat) :
    PulseSeq ds (writesOf (pulsesFrom d ds s).2) := by
  induction ds generalizing s with
  | nil => exact PulseSeq.nil
  | cons k rest ih =>
      simp only [pulsesFrom, writesOf]
      exact PulseSeq.cons
        (by rw [testBit_clearBits, testBit_oneShift]; simp)
        (by simp only [Nat.testBit_lor, testBit_oneShift]; simp)
        (ih _)

theorem pulsesFrom_guard_low (d : Nat) (ds : List Nat) (s : Nat)
    (hd : ∀ k ∈ ds, 1 ≤ k ∧ k ≤ 8)
    (h0 : s.testBit 0 = false) (h9 : s.testBit 9 = false) :
    (∀ w ∈ writesOf (pulsesFrom d ds s).2, w.testBit 0 = false ∧ w.testBit 9 = false) ∧
    (pulsesFrom d ds s).1.testBit 0 = false ∧ (pulsesFrom d ds s).1.testBit 9 = false := by
  induction ds generalizing s with
  | nil => exact ⟨by simp [pulsesFrom, writesOf], h0, h9⟩
  | cons k rest ih =>
      have hk := hd k (List.mem_cons_self k rest)
      have hk0 : ¬((0 : Nat) = k) := by omega
      have hk9 : ¬((9 : Nat) = k) := by omega
      have hon0 : (clearBits s (1 <<< k)).testBit 0 = false := by
        rw [testBit_clearBits, h0, Bool.false_and]
      have hon9 : (clearBits s (1 <<< k)).testBit 9 = false := by
        rw [testBit_clearBits, h9, Bool.false_and]
      have hoff0 : (clearBits s (1 <<< k) ||| (1 <<< k)).testBit 0 = false := by
        rw [Nat.testBit_lor, hon0, testBit_oneShift, Bool.false_or, decide_eq_false hk0]
      have hoff9 : (clearBits s (1 <<< k) ||| (1 <<< k)).testBit 9 = false := by
        rw [Nat.testBit_lor, hon9, testBit_oneShift, Bool.false_or, decide_eq_false hk9]
      have hrest := ih (clearBits s (1 <<< k) ||| (1 <<< k))
        (fun x hx => hd x (List.mem_cons_of_mem k hx)) hoff0 hoff9
      refine ⟨?_, hrest.2⟩
      intro w hw
      simp only [pulsesFrom, writesOf, List.mem_cons] at hw
      rcases hw with h | h | h
      · exact h ▸ ⟨hon0, hon9⟩
      · exact h ▸ ⟨hoff0, hoff9⟩
      · exact hrest.1 w h

theorem sequenceModeThread_writes (d : Nat) (ds : List Nat) (s : Nat) :
    writesOf (sequenceModeThread d ds s).2 =
      clearBits s guardMask ::
        (writesOf (pulsesFrom d ds (clearBits s guardMask)).2
          ++ [(pulsesFrom d ds (clearBits s guardMask)).1 ||| guardMask]) := by
  simp [sequenceModeThread, writesOf, writesOf_append]

/-- Claim C6 (amended): for every digit list drawn from relays 1–8 — as all
catalog sequences are — `_sequence_mode_thread` emits its writes in exactly
the order guardOn, pulse on/off per digit in list order, guardOff, and the
guard relay bits 0 and 9 are low (energized) in the guardOn write and every
inner pulse write, returning high only in the final guardOff write.  When a
digit list contains relay 0 or 9 itself, the OFF half of that digit's pulse
re-asserts the guard bit mid-sequence, so the restriction to digits 1–8 is
necessary (see the counterexample). -/
theorem guarded_multi_shape (d s : Nat) (ds : List Nat)
    (hd : ∀ k ∈ ds, 1 ≤ k ∧ k ≤ 8) :
    ∃ gOn inner gOff,
      writesOf (sequenceModeThread d ds s).2 = gOn :: (inner ++ [gOff]) ∧
      PulseSeq ds inner ∧
      (∀ w ∈ gOn :: inner, w.testBit 0 = false ∧ w.testBit 9 = false) ∧
      gOff.testBit 0 = true ∧ gOff.testBit 9 = true := by
  have hg0 : (clearBits s guardMask).testBit 0 = false := by
    rw [testBit_clearBits, testBit_guardMask]; simp
  have hg9 : (clearBits s guardMask).testBit 9 = false := by
    rw [testBit_clearBits, testBit_guardMask]; simp
  have hlow := pulsesFrom_guard_low d ds (clearBits s guardMask) hd hg0 hg9
  refine ⟨clearBits s guardMask,
    writesOf (pulsesFrom d ds (clearBits s guardMask)).2,
    (pulsesFrom d ds (clearBits s guardMask)).1 ||| guardMask,
    sequenceModeThread_writes d ds s, pulsesFrom_pulseSeq d ds _, ?_, ?_, ?_⟩
  · intro w hw
    rcases List.mem_cons.mp hw with h | h
    · exact h ▸ ⟨hg0, hg9⟩
    · exact hlow.1 w h
  · rw [Nat.testBit_lor, testBit_guardMask]; simp
  · rw [Nat.testBit_lor, testBit_guardMask]; simp

/-- Witness for C6 (amended) at duration 0.5 s, pre-state `0xFFFF`, the
Tkinter Zone-Right digit list 8,7,1,2. -/
theorem guarded_multi_shape_witness :
    (∀ k ∈ [8, 7, 1, 2], 1 ≤ k ∧ k ≤ 8) ∧
    (∃ gOn inner gOff,
      writesOf (sequenceModeThread 500 [8, 7, 1, 2] 0xFFFF).2 = gOn :: (inner ++ [gOff]) ∧
      PulseSeq [8, 7, 1, 2] inner ∧
      (∀ w ∈ gOn :: inner, w.testBit 0 = false ∧ w.testBit 9 = false) ∧
      gOff.testBit 0 = true ∧ gOff.testBit 9 = true) :=
  ⟨by decide, guarded_multi_shape 500 0xFFFF [8, 7, 1, 2] (by decide)⟩

/-- Counterexample to C6 as stated (quantified over every digit list): with
digit list 9,1,2,1 the OFF half of the first pulse (write index 2) already
re-asserts guard bit 9 while seven more writes, including the final guardOff
at index 9, are still to come — the guard bit does not stay low until the
final write. -/
theorem guarded_multi_digit9_reasserts_guard :
    ((writesOf (sequenceModeThread 500 [9, 1, 2, 1] 0xFFFF).2).getD 2 0).testBit 9 = true ∧
    (writesOf (sequenceModeThread 500 [9, 1, 2, 1] 0xFFFF).2).length = 10 := by
  decide

/-- Claim C2 (amended): the fixed catalog digit sequences, as emitted pulse by
pulse on every invocation, are — Programming-Mode entry 2,1,2,1; Reset
4,5,6,6; Zone-Left 8,7,1,1 (both GUI variants); Zone-Right 8,7,1,2 in the
Tkinter variant (`Gui.py`) but 8,7,2,2 in the PyQt variant
(`relay_control.py`).  Each operation's write trace decomposes as guardOn,
the inner pulses in exactly that digit order, guardOff. -/
theorem catalog_digit_sequences (d s : Nat) :
    (∃ a b c, writesOf (programmingModeThread d s).2 = a :: (b ++ [c]) ∧
      PulseSeq [2, 1, 2, 1] b) ∧
    (∃ a b c, writesOf (resetMode d s).2 = a :: (b ++ [c]) ∧
      PulseSeq [4, 5, 6, 6] b) ∧
    (∃ a b c, writesOf (zoneLeft d s).2 = a :: (b ++ [c]) ∧
      PulseSeq [8, 7, 1, 1] b) ∧
    (∃ a b c, writesOf (zoneRightGui d s).2 = a :: (b ++ [c]) ∧
      PulseSeq [8, 7, 1, 2] b) ∧
    (∃ a b c, writesOf (zoneRightRc d s).2 = a :: (b ++ [c]) ∧
      PulseSeq [8, 7, 2, 2] b) := by
  refine ⟨?_, ?_, ?_, ?_, ?_⟩ <;>
    exact ⟨_, _, _, sequenceModeThread_writes d _ s, pulsesFrom_pulseSeq d _ _⟩

/-- Counterexample to C2 as stated: in the PyQt variant the third inner pulse
of Zone-Right (ON write at index 5 of the trace) leaves relay 1 de-energized
(bit 1 still high) and energizes relay 2 (bit 2 low) — the claimed digit
sequence 8,7,1,2 would require relay 1 there.  `relay_control.zone_right`
passes ["8","7","2","2"], not ["8","7","1","2"]. -/
theorem zone_right_rc_third_pulse_not_digit1 :
    ((writesOf (zoneRightRc 500 0xFFFF).2).getD 5 0).testBit 1 = true ∧
    ((writesOf (zoneRightRc 500 0xFFFF).2).getD 5 0).testBit 2 = false := by
  decide

theorem singlePress_noGuard_facts (d k s : Nat) (hk0 : ¬((0 : Nat) = k)) (hk9 : ¬((9 : Nat) = k)) :
    writesOf (singlePressModeThread false d k s).2 =
      [clearBits s (1 <<< k), clearBits s (1 <<< k) ||| (1 <<< k)] ∧
    (clearBits s (1 <<< k)).testBit k = false ∧
    (clearBits s (1 <<< k) ||| (1 <<< k)).testBit k = true ∧
    (∀ w ∈ writesOf (singlePressModeThread false d k s).2,
      w.testBit 0 = s.testBit 0 ∧ w.testBit 9 = s.testBit 9) := by
  have hon : ∀ j, ¬(j = k) → (clearBits s (1 <<< k)).testBit j = s.testBit j := by
    intro j hj
    rw [testBit_clearBits, testBit_oneShift, decide_eq_false hj]
    simp
  have hoff : ∀ j, ¬(j = k) →
      (clearBits s (1 <<< k) ||| (1 <<< k)).testBit j = s.testBit j := by
    intro j hj
    rw [Nat.testBit_lor, hon j hj, testBit_oneShift, decide_eq_false hj]
    simp
  refine ⟨rfl, ?_, ?_, ?_⟩
  · rw [testBit_clearBits, testBit_oneShift]; simp
  · simp only [Nat.testBit_lor, testBit_oneShift]; simp
  · intro w hw
    simp only [singlePressModeThread, if_neg (Bool.false_ne_true), writesOf,
      List.mem_cons, List.not_mem_nil, or_false] at hw
    rcases hw with h | h
    · exact h ▸ ⟨hon 0 hk0, hon 9 hk9⟩
    · exact h ▸ ⟨hoff 0 hk0, hoff 9 hk9⟩

/-- Claim C3 (amended): in `relay_control.py` only Exit-Programming-Mode emits
the guardedSingle shape — guard relays 0 and 9 cleared, 0.3 s wait, the single
pulse of digit 8 for the configured duration, 0.1 s wait, guard relays set.
The seven other named single-mode operations (Scene-Mode with its GUI digit 1,
Channel-Mode 2, Level-Mode 3, Fade-Short 4, Fade-Long 5, Circuit-Activation 6,
Copy 7) emit only the pulse of their digit followed by the 0.1 s wait: exactly
two writes, no guard writes at all, every written word agreeing with the
pre-state on the guard bits 0 and 9.  (In the Tkinter `Gui.py` variant, by
contrast, all eight operations carry the guard bracket.) -/
theorem single_modes_guard_only_exit (d s : Nat) :
    ((exitProgrammingMode d s).2 =
      [Event.write (clearBits s guardMask), Event.sleep 300,
       Event.write (clearBits (clearBits s guardMask) (1 <<< 8)), Event.sleep d,
       Event.write (clearBits (clearBits s guardMask) (1 <<< 8) ||| (1 <<< 8)),
       Event.sleep 100,
       Event.write (clearBits (clearBits s guardMask) (1 <<< 8) ||| (1 <<< 8) ||| guardMask)] ∧
     (clearBits s guardMask).testBit 0 = false ∧
     (clearBits s guardMask).testBit 9 = false ∧
     (clearBits (clearBits s guardMask) (1 <<< 8)).testBit 8 = false ∧
     (clearBits (clearBits s guardMask) (1 <<< 8) ||| (1 <<< 8)).testBit 8 = true ∧
     (clearBits (clearBits s guardMask) (1 <<< 8) ||| (1 <<< 8) ||| guardMask).testBit 0 = true ∧
     (clearBits (clearBits s guardMask) (1 <<< 8) ||| (1 <<< 8) ||| guardMask).testBit 9
       = true) ∧
    (sceneMode d 1 s = singlePressModeThread false d 1 s ∧
     channelMode d s = singlePressModeThread false d 2 s ∧
     levelMode d s = singlePressModeThread false d 3 s ∧
     fadeShortMode d s = singlePressModeThread false d 4 s ∧
     fadeLongMode d s = singlePressModeThread false d 5 s ∧
     circuitActivation d s = singlePressModeThread false d 6 s ∧
     copyMode d s = singlePressModeThread false d 7 s) ∧
    (∀ k, 1 ≤ k → k ≤ 8 →
      writesOf (singlePressModeThread false d k s).2 =
        [clearBits s (1 <<< k), clearBits s (1 <<< k) ||| (1 <<< k)] ∧
      (clearBits s (1 <<< k)).testBit k = false ∧
      (clearBits s (1 <<< k) ||| (1 <<< k)).testBit k = true ∧
      (∀ w ∈ writesOf (singlePressModeThread false d k s).2,
        w.testBit 0 = s.testBit 0 ∧ w.testBit 9 = s.testBit 9)) := by
  refine ⟨⟨rfl, ?_, ?_, ?_, ?_, ?_, ?_⟩, ⟨rfl, rfl, rfl, rfl, rfl, rfl, rfl⟩, ?_⟩
  · rw [testBit_clearBits, testBit_guardMask]; simp
  · rw [testBit_clearBits, testBit_guardMask]; simp
  · rw [testBit_clearBits, testBit_oneShift]; simp
  · simp only [Nat.testBit_lor, testBit_oneShift]; simp
  · rw [Nat.testBit_lor, testBit_guardMask]; simp
  · rw [Nat.testBit_lor, testBit_guardMask]; simp
  · intro k h1 h8
    exact singlePress_noGuard_facts d k s (by omega) (by omega)

/-- Witness for C3 (amended) at duration 0.5 s, pre-state `0xFFFF`, digit 1
(Scene-Mode): the bounded-digit hypotheses are discharged concretely. -/
theorem single_modes_guard_only_exit_witness :
    (exitProgrammingMode 500 0xFFFF).2 =
      [Event.write (clearBits 0xFFFF guardMask), Event.sleep 300,
       Event.write (clearBits (clearBits 0xFFFF guardMask) (1 <<< 8)), Event.sleep 500,
       Event.write (clearBits (clearBits 0xFFFF guardMask) (1 <<< 8) ||| (1 <<< 8)),
       Event.sleep 100,
       Event.write
         (clearBits (clearBits 0xFFFF guardMask) (1 <<< 8) ||| (1 <<< 8) ||| guardMask)] ∧
    writesOf (singlePressModeThread false 500 1 0xFFFF).2 =
      [clearBits 0xFFFF (1 <<< 1), clearBits 0xFFFF (1 <<< 1) ||| (1 <<< 1)] :=
  ⟨(single_modes_guard_only_exit 500 0xFFFF).1.1,
   ((single_modes_guard_only_exit 500 0xFFFF).2.2 1 (by decide) (by decide)).1⟩

/-- Counterexample to C3 as stated: the Scene-Mode worker of
`relay_control.py` (digit 1, duration 0.5 s, pre-state `0xFFFF`) emits exactly
two writes and in both of them guard bits 0 and 9 are still 1 — the claimed
guardOn (clearing relays 0 and 9) never happens for this operation; only Exit
Prog Mode takes the guard branch. -/
theorem scene_mode_emits_no_guard_writes :
    (writesOf (sceneMode 500 1 0xFFFF).2).length = 2 ∧
    ∀ w ∈ writesOf (sceneMode 500 1 0xFFFF).2, w.testBit 0 = true ∧ w.testBit 9 = true := by
  decide

theorem foldl_select_eq_filterMap {α β : Type} (c : α → Bool) (g : α → β) :
    ∀ (l : List α) (acc : List β),
      l.foldl (fun acc p => if c p then acc ++ [g p] else acc) acc
        = acc ++ l.filterMap (fun p => if c p then some (g p) else none)
  | [], acc => by simp
  | x :: xs, acc => by
      by_cases h : c x <;>
        simp [List.foldl_cons, h, foldl_select_eq_filterMap c g xs, List.filterMap_cons]

theorem channelsToProgram_eq_filterMap (rows : List ChannelRow) (sceneDigit zone : Nat) :
    channelsToProgram rows sceneDigit zone =
      (enumFrom 1 rows).filterMap (fun p =>
        if p.2.zone = zone then some (p.1, p.2.scenes.getD (sceneIndex sceneDigit) 0)
        else none) := by
  have h := foldl_select_eq_filterMap (fun p : Nat × ChannelRow => decide (p.2.zone = zone))
    (fun p => (p.1, p.2.scenes.getD (sceneIndex sceneDigit) 0)) (enumFrom 1 rows) []
  simpa [channelsToProgram] using h

/-- Claim C4: `program_scene_levels_sequence` issues, after the fixed prelude
(Exit Prog Mode, zone programming, Enter Prog Mode, Quick Scene, scene digit),
exactly one Quick-Circuit + channel-digit-entry + Quick-Level +
level-digit-entry block per row whose zone equals the target zone — in table
order, with the level taken from that row's scene column at index
`sceneIndex` (digit 1–9 ↦ index digit−1, digit 0 ↦ index 9) — and zero steps
for every non-matching row.  Concretely, for rows with zones 2,3,2 and target
zone 2, exactly channels 1 and 3 are programmed (with their own scene levels)
and channel 2 contributes nothing; with scene digit 0 the level comes from
column index 9. -/
theorem program_scene_one_pair_per_matching_row (rows : List ChannelRow) (sceneDigit zone : Nat) :
    programSceneLevelsSequence rows sceneDigit zone =
      SeqOp.exitProg :: SeqOp.zoneProgram zone :: SeqOp.progMode :: SeqOp.quickScene ::
        SeqOp.sceneDigit sceneDigit ::
        (((enumFrom 1 rows).filterMap (fun p =>
            if p.2.zone = zone then some (p.1, p.2.scenes.getD (sceneIndex sceneDigit) 0)
            else none)).flatMap perChannelOps ++ [SeqOp.exitProg]) ∧
    channelsToProgram zoneRowsExample 1 2 = [(1, 11), (3, 31)] ∧
    channelsToProgram zoneRowsExample 0 2 = [(1, 20), (3, 40)] ∧
    channelsToProgram zoneRowsExample 1 7 = [] := by
  refine ⟨?_, by decide, by decide, by decide⟩
  rw [programSceneLevelsSequence, channelsToProgram_eq_filterMap]

theorem allocLoop_eq_flatMap (zone : Nat) :
    ∀ (idx : Nat) (rows : List ChannelRow),
      allocLoop zone idx rows =
        (enumFrom idx rows).flatMap (fun p =>
          (zfill2 p.1).map SeqOp.circuitDigit
            ++ [SeqOp.allocDigit (if p.2.zone = zone then 1 else 0)])
  | _, [] => rfl
  | idx, r :: rest => by
      simp [allocLoop, enumFrom, allocLoop_eq_flatMap zone (idx + 1) rest]

theorem allocDigitsOf_append (a b : List SeqOp) :
    allocDigitsOf (a ++ b) = allocDigitsOf a ++ allocDigitsOf b := by
  simp [allocDigitsOf]

theorem allocDigitsOf_circuitDigits (l : List Nat) :
    allocDigitsOf (l.map SeqOp.circuitDigit) = [] := by
  induction l with
  | nil => rfl
  | cons x xs ih => simp [allocDigitsOf, List.filterMap_cons] at ih ⊢

theorem allocDigitsOf_allocLoop (zone : Nat) :
    ∀ (idx : Nat) (rows : List ChannelRow),
      allocDigitsOf (allocLoop zone idx rows) =
        rows.map (fun r => if r.zone = zone then 1 else 0)
  | _, [] => rfl
  | idx, r :: rest => by
      rw [allocLoop, allocDigitsOf_append, allocDigitsOf_append,
        allocDigitsOf_circuitDigits, allocDigitsOf_allocLoop zone (idx + 1) rest]
      simp [allocDigitsOf, List.filterMap_cons]

/-- Claim C5: `allocate_to_zones_sequence` visits every channel row in table
order and emits, per row, the two zero-padded channel digits followed by
allocation digit 1 when the row's zone equals the target zone and 0 otherwise;
the allocation-digit stream of the whole sequence is exactly the rows mapped
through that rule, and for three rows with zones 5,1,5 and target zone 5 it is
1,0,1 in row order. -/
theorem allocate_digit_per_row (rows : List ChannelRow) (zone : Nat) :
    allocLoop zone 1 rows =
      (enumFrom 1 rows).flatMap (fun p =>
        (zfill2 p.1).map SeqOp.circuitDigit
          ++ [SeqOp.allocDigit (if p.2.zone = zone then 1 else 0)]) ∧
    allocDigitsOf (allocateToZonesSequence rows zone) =
      rows.map (fun r => if r.zone = zone then 1 else 0) ∧
    allocDigitsOf (allocateToZonesSequence allocRowsExample 5) = [1, 0, 1] := by
  refine ⟨allocLoop_eq_flatMap zone 1 rows, ?_, by decide⟩
  rw [allocateToZonesSequence]
  simp only [allocDigitsOf, List.filterMap_cons, List.filterMap_append]
  have h := allocDigitsOf_allocLoop zone 1 rows
  rw [allocDigitsOf] at h
  rw [h]
  simp

/-- Claim C10: when debug mode is off, `wait_for_next_step` returns at once
with the page state untouched; toggling debug mode from on to off turns the
flag off and sets the `step_ready` event, so a sequence thread suspended at a
debug checkpoint (which always has `debug_mode` on in its suspended state) is
released by the toggle instead of blocking forever. -/
theorem debug_gate_never_wedges (st : DebugPageState) :
    (st.debugMode = false → waitForNextStep st = WaitOutcome.completed st) ∧
    (st.debugMode = true →
      (toggleDebugMode st).debugMode = false ∧ (toggleDebugMode st).stepReady = true) ∧
    (∀ st2, waitForNextStep st = WaitOutcome.suspendedAt st2 →
      releasedBy (toggleDebugMode st2) = true) := by
  refine ⟨?_, ?_, ?_⟩
  · intro h
    simp [waitForNextStep, h]
  · intro h
    simp [toggleDebugMode, h, releasedBy]
  · intro st2 hsus
    by_cases h : st.debugMode
    · simp only [waitForNextStep, if_pos h, WaitOutcome.suspendedAt.injEq] at hsus
      subst hsus
      simp [toggleDebugMode, h, releasedBy]
    · simp [waitForNextStep, h] at hsus

/-- Witness for C10: a state with debug mode on and the step event clear — a
thread suspended there is released by the toggle; and a debug-off state passes
straight through. -/
theorem debug_gate_never_wedges_witness :
    (DebugPageState.debugMode ⟨false, false, false⟩ = false →
      waitForNextStep ⟨false, false, false⟩ = WaitOutcome.completed ⟨false, false, false⟩) ∧
    (DebugPageState.debugMode ⟨true, false, true⟩ = true →
      (toggleDebugMode ⟨true, false, true⟩).debugMode = false ∧
      (toggleDebugMode ⟨true, false, true⟩).stepReady = true) :=
  ⟨(debug_gate_never_wedges ⟨false, false, false⟩).1,
   (debug_gate_never_wedges ⟨true, false, true⟩).2.1⟩

/-- Claim C9 (code bug evidence): the composite workers have no try/finally,
so a GPIO write that raises aborts the worker before the terminal log line and
before the re-enable of the triggering button.  With a hardware-write budget
of 0 (the very first write raises) the Program-Scene composite performs the
disable and then nothing else — no terminal log, no re-enable, leaving the
button disabled forever; with a budget of 20 it makes partial hardware
progress and still never re-enables; only the full-success run (ample budget)
ends with the terminal log followed by the re-enable. -/
theorem program_scene_failure_leaves_button_disabled :
    (programSceneComposite 500 0 0xFFFF zoneRowsExample 1 2 = [UiEvent.uiDisable] ∧
     UiEvent.uiEnable ∉ programSceneComposite 500 0 0xFFFF zoneRowsExample 1 2 ∧
     UiEvent.terminalLog ∉ programSceneComposite 500 0 0xFFFF zoneRowsExample 1 2) ∧
    (UiEvent.uiEnable ∉ programSceneComposite 500 20 0xFFFF zoneRowsExample 1 2 ∧
     UiEvent.terminalLog ∉ programSceneComposite 500 20 0xFFFF zoneRowsExample 1 2 ∧
     2 ≤ (programSceneComposite 500 20 0xFFFF zoneRowsExample 1 2).length) ∧
    (UiEvent.terminalLog ∈ programSceneComposite 500 1000 0xFFFF zoneRowsExample 1 2 ∧
     UiEvent.uiEnable ∈ programSceneComposite 500 1000 0xFFFF zoneRowsExample 1 2) := by
  decide

theorem mem_intersperse {α : Type} (sep x : α) :
    ∀ (L : List α), x ∈ L.intersperse sep → x = sep ∨ x ∈ L
  | [], h => by simp [List.intersperse] at h
  | [a], h => by
      simp [List.intersperse] at h
      exact Or.inr (by simp [h])
  | a :: b :: t, h => by
      simp only [List.intersperse, List.mem_cons] at h
      rcases h with h1 | h1 | h1
      · exact Or.inr (by simp [h1])
      · exact Or.inl h1
      · rcases mem_intersperse sep x (b :: t) h1 with h2 | h2
        · exact Or.inl h2
        · exact Or.inr (List.mem_cons_of_mem a h2)

theorem mem_joinChar {c x : Char} {L : List PStr} (h : x ∈ joinChar c L) :
    x = c ∨ ∃ l ∈ L, x ∈ l := by
  rw [joinChar, List.intercalate, List.mem_flatten] at h
  obtain ⟨l, hl, hx⟩ := h
  rcases mem_intersperse [c] l L hl with h1 | h1
  · subst h1
    simp at hx
    exact Or.inl hx
  · exact Or.inr ⟨l, h1, hx⟩

theorem sep_mem_joinChar (c : Char) (a b : PStr) (rest : List PStr) :
    c ∈ joinChar c (a :: b :: rest) := by
  rw [joinChar, List.intercalate, List.mem_flatten]
  exact ⟨[c], by simp [List.intersperse], by simp⟩

theorem splitOnChar_joinChar (c : Char) (L : List PStr) (hne : L ≠ [])
    (h : ∀ l ∈ L, c ∉ l) : splitOnChar c (joinChar c L) = L :=
  List.splitOn_intercalate L c h hne

theorem dropWhile_eq_self_of {p : Char → Bool} :
    ∀ {l : PStr}, (∀ x ∈ l, p x = false) → l.dropWhile p = l
  | [], _ => rfl
  | x :: xs, h => by
      simp [List.dropWhile_cons, h x (List.mem_cons_self x xs)]

theorem trimChars_eq_self {l : PStr} (h : ∀ x ∈ l, isPySpace x = false) :
    trimChars l = l := by
  rw [trimChars, dropWhile_eq_self_of h,
    dropWhile_eq_self_of (fun x hx => h x (List.mem_reverse.mp hx)), List.reverse_reverse]

theorem trimChars_eq_nil_forall {l : PStr} (h : trimChars l = []) :
    ∀ x ∈ l, isPySpace x = true := by
  intro x hx
  rw [trimChars, List.reverse_eq_nil_iff, List.dropWhile_eq_nil_iff] at h
  rcases List.mem_append.mp
      ((List.takeWhile_append_dropWhile (p := isPySpace) (l := l)) ▸ hx) with h1 | h1
  · exact List.mem_takeWhile_imp h1
  · exact h x (List.mem_reverse.mpr h1)

theorem trim_ne_nil_of_mem {l : PStr} {x : Char} (hx : x ∈ l) (hnx : isPySpace x = false) :
    trimChars l ≠ [] := by
  intro hnil
  rw [trimChars_eq_nil_forall hnil x hx] at hnx
  exact Bool.noConfusion hnx

theorem cleanField_spec {l : PStr} (h : cleanField l = true) :
    (∀ x ∈ l, cleanChar x = true) ∧ trimChars l = l := by
  rw [cleanField, Bool.and_eq_true, List.all_eq_true] at h
  exact ⟨h.1, by simpa using h.2⟩

theorem cleanChar_not_comma {x : Char} (h : cleanChar x = true) : ¬(x = ',') := by
  rintro rfl
  revert h
  decide

theorem cleanChar_not_newline {x : Char} (h : cleanChar x = true) : ¬(x = '\n') := by
  rintro rfl
  revert h
  decide

theorem natDigitsAux_lt_ten : ∀ (f n : Nat), ∀ x ∈ natDigitsAux f n, x < 10
  | 0, n => by simp [natDigitsAux]
  | f + 1, n => by
      intro x hx
      rw [natDigitsAux] at hx
      by_cases h : n = 0
      · rw [if_pos h] at hx
        cases hx
      · rw [if_neg h] at hx
        rcases List.mem_append.mp hx with h1 | h1
        · exact natDigitsAux_lt_ten f (n / 10) x h1
        · rw [List.mem_singleton.mp h1]
          exact Nat.mod_lt _ (by omega)

theorem natDigits_lt_ten (n : Nat) : ∀ x ∈ natDigits n, x < 10 := by
  intro x hx
  rw [natDigits] at hx
  by_cases h : n = 0
  · rw [if_pos h] at hx
    simp [List.mem_singleton.mp hx]
  · exact natDigitsAux_lt_ten n n x (by rwa [if_neg h] at hx)

theorem digitChar_clean : ∀ dd, dd < 10 →
    cleanChar (digitChar dd) = true ∧ isPySpace (digitChar dd) = false := by
  decide

theorem charDigits_clean (n : Nat) :
    (∀ x ∈ charDigits n, cleanChar x = true) ∧ (∀ x ∈ charDigits n, isPySpace x = false) := by
  constructor <;> intro x hx <;>
    obtain ⟨dd, hdd, rfl⟩ := List.mem_map.mp hx
  · exact (digitChar_clean dd (natDigits_lt_ten n dd hdd)).1
  · exact (digitChar_clean dd (natDigits_lt_ten n dd hdd)).2

theorem trimChars_charDigits (n : Nat) : trimChars (charDigits n) = charDigits n :=
  trimChars_eq_self (charDigits_clean n).2

theorem clean_no_comma {l : PStr} (h : ∀ x ∈ l, cleanChar x = true) : ',' ∉ l := by
  intro hc
  exact cleanChar_not_comma (h ',' hc) rfl

theorem clean_no_newline {l : PStr} (h : ∀ x ∈ l, cleanChar x = true) : '\n' ∉ l := by
  intro hc
  exact cleanChar_not_newline (h '\n' hc) rfl

theorem map_trim_id : ∀ {cells : List PStr}, (∀ l ∈ cells, trimChars l = l) →
    cells.map trimChars = cells
  | [], _ => rfl
  | a :: as, h => by
      rw [List.map_cons, h a (List.mem_cons_self a as),
        map_trim_id (fun l hl => h l (List.mem_cons_of_mem a hl))]

theorem rowCells_clean {r : RowData} (h : rowClean r) (idx : Nat) :
    (∀ cell ∈ rowCells idx r, ',' ∉ cell) ∧
    (∀ cell ∈ rowCells idx r, trimChars cell = cell) ∧
    (∀ cell ∈ rowCells idx r, '\n' ∉ cell) := by
  obtain ⟨hz, hd, hn, ht, hlen, hs⟩ := h
  have hcases : ∀ cell ∈ rowCells idx r,
      cell = charDigits idx ∨ (∀ x ∈ cell, cleanChar x = true) ∧ trimChars cell = cell := by
    intro cell hcell
    simp only [rowCells, List.mem_cons] at hcell
    rcases hcell with rfl | rfl | rfl | rfl | rfl | hmem
    · exact Or.inl rfl
    · exact Or.inr (cleanField_spec hz)
    · exact Or.inr (cleanField_spec hd)
    · exact Or.inr (cleanField_spec hn)
    · exact Or.inr (cleanField_spec ht)
    · exact Or.inr (cleanField_spec (hs cell hmem))
  refine ⟨?_, ?_, ?_⟩ <;> intro cell hcell <;> rcases hcases cell hcell with rfl | ⟨hc, hf⟩
  · exact clean_no_comma (charDigits_clean idx).1
  · exact clean_no_comma hc
  · exact trimChars_charDigits idx
  · exact hf
  · exact clean_no_newline (charDigits_clean idx).1
  · exact clean_no_newline hc

theorem parseRow_joinChar {r : RowData} (h : rowClean r) (idx : Nat) :
    parseRow (joinChar ',' (rowCells idx r)) =
      some { channel := charDigits idx, zone := r.zone, dimRef := r.dimRef,
             name := r.name, rowType := r.rowType, scenes := r.scenes } := by
  obtain ⟨hz, hd, hn, ht, hlen, hs⟩ := h
  have hsplit : splitOnChar ',' (joinChar ',' (rowCells idx r)) = rowCells idx r :=
    splitOnChar_joinChar ',' _ (by simp [rowCells]) (rowCells_clean ⟨hz, hd, hn, ht, hlen, hs⟩ idx).1
  have htrim : (rowCells idx r).map trimChars = rowCells idx r :=
    map_trim_id (rowCells_clean ⟨hz, hd, hn, ht, hlen, hs⟩ idx).2.1
  simp only [parseRow, hsplit, htrim]
  rw [if_neg (by simp [rowCells, hlen])]
  simp only [rowCells, List.getD_cons_zero, List.getD_cons_succ, List.drop_succ_cons,
    List.drop_zero]
  rw [List.take_of_length_le (by omega)]

theorem dataLines_length : ∀ (idx : Nat) (rows : List RowData),
    (dataLines idx rows).length = rows.length
  | _, [] => rfl
  | idx, r :: rest => by
      rw [dataLines, List.length_cons, List.length_cons, dataLines_length]

theorem mem_dataLines : ∀ {idx : Nat} {rows : List RowData} {l : PStr},
    l ∈ dataLines idx rows → ∃ i r, r ∈ rows ∧ l = joinChar ',' (rowCells i r)
  | _, [], _, h => by cases h
  | idx, r :: rest, l, h => by
      rcases List.mem_cons.mp h with h1 | h1
      · exact ⟨idx, r, List.mem_cons_self r rest, h1⟩
      · obtain ⟨i, r2, hm, he⟩ := mem_dataLines h1
        exact ⟨i, r2, List.mem_cons_of_mem r hm, he⟩

theorem filterMap_parseRow_dataLines : ∀ (idx : Nat) (rows : List RowData),
    (∀ r ∈ rows, rowClean r) →
    (dataLines idx rows).filterMap parseRow = expectedRows idx rows
  | _, [], _ => rfl
  | idx, r :: rest, h => by
      rw [dataLines, List.filterMap_cons, parseRow_joinChar (h r (List.mem_cons_self r rest)) idx,
        expectedRows,
        filterMap_parseRow_dataLines (idx + 1) rest (fun x hx => h x (List.mem_cons_of_mem r hx))]

theorem headerCells_no_newline : ∀ cell ∈ headerCells, '\n' ∉ cell := by decide

theorem headerCells_no_comma : ∀ cell ∈ headerCells, ',' ∉ cell := by decide

theorem generatedLines_no_newline (t : SheetTable) (hsite : cleanField t.siteName = true)
    (hdate : cleanField t.siteDate = true) (hrows : ∀ r ∈ t.rows, rowClean r) :
    ∀ l ∈ generatedLines t, '\n' ∉ l := by
  intro l hl hnl
  have hline : ∀ (cells : List PStr), (∀ cell ∈ cells, '\n' ∉ cell) →
      '\n' ∉ joinChar ',' cells := by
    intro cells hcells hmem
    rcases mem_joinChar hmem with h1 | ⟨cell, hcell, hx⟩
    · exact absurd h1 (by decide)
    · exact hcells cell hcell hx
  have hhead : ∀ (a : PStr), (∀ x ∈ a, cleanChar x = true) →
      ∀ cell ∈ a :: List.replicate 13 ([] : PStr), '\n' ∉ cell := by
    intro a ha cell hcell
    rcases List.mem_cons.mp hcell with rfl | h1
    · exact clean_no_newline ha
    · rw [List.eq_of_mem_replicate h1]
      exact List.not_mem_nil '\n'
  simp only [generatedLines, List.mem_cons] at hl
  rcases hl with rfl | rfl | rfl | hmem
  · refine hline _ ?_ hnl
    intro cell hcell
    rcases List.mem_cons.mp hcell with rfl | h1
    · exact by decide
    · refine hhead (trimChars t.siteName) ?_ cell h1
      rw [(cleanField_spec hsite).2]
      exact (cleanField_spec hsite).1
  · refine hline _ ?_ hnl
    intro cell hcell
    rcases List.mem_cons.mp hcell with rfl | h1
    · exact by decide
    · refine hhead (trimChars t.siteDate) ?_ cell h1
      rw [(cleanField_spec hdate).2]
      exact (cleanField_spec hdate).1
  · exact hline _ headerCells_no_newline hnl
  · obtain ⟨i, r, hr, rfl⟩ := mem_dataLines hmem
    exact hline _ (rowCells_clean (hrows r hr) i).2.2 hnl

theorem generatedLines_nonblank (t : SheetTable) :
    ∀ l ∈ generatedLines t, trimChars l ≠ [] := by
  intro l hl
  have hcomma : ∀ (a b : PStr) (rest : List PStr),
      trimChars (joinChar ',' (a :: b :: rest)) ≠ [] := by
    intro a b rest
    exact trim_ne_nil_of_mem (sep_mem_joinChar ',' a b rest) (by decide)
  simp only [generatedLines, List.mem_cons] at hl
  rcases hl with rfl | rfl | rfl | hmem
  · exact hcomma _ _ _
  · exact hcomma _ _ _
  · exact hcomma _ _ _
  · obtain ⟨i, r, hr, rfl⟩ := mem_dataLines hmem
    exact hcomma _ _ _

/-- Claim C8 (amended): CSV export followed by import is the identity on the
table contents provided every string field is comma-free, line-break-free and
carries no leading or trailing whitespace (Python's `strip()`, applied by the
parser to every cell, fixes such fields); the table has at least one row and
ten scene cells per row.  Then `parse_csv (generate_csv_data t)` returns
exactly the original site name, date and, per row, the channel rendered as its
decimal string together with the original zone, dim ref, name, type and ten
scene values.  Without the no-boundary-whitespace condition the round trip
fails (see the counterexample): the parser's `strip()` eats leading/trailing
spaces the generator wrote verbatim. -/
theorem csv_export_import_roundtrip (t : SheetTable) (hne : t.rows ≠ [])
    (hsite : cleanField t.siteName = true) (hdate : cleanField t.siteDate = true)
    (hrows : ∀ r ∈ t.rows, rowClean r) :
    parseCsv (generateCsvData t) =
      some { siteName := t.siteName, siteDate := t.siteDate, rows := expectedRows 1 t.rows } := by
  have hsiteSpec := cleanField_spec hsite
  have hdateSpec := cleanField_spec hdate
  have hA : splitOnChar '\n' (generateCsvData t) = generatedLines t := by
    rw [generateCsvData]
    exact splitOnChar_joinChar '\n' _ (by simp [generatedLines])
      (generatedLines_no_newline t hsite hdate hrows)
  have hB : (splitOnChar '\n' (generateCsvData t)).filter (fun l => trimChars l != [])
      = generatedLines t := by
    rw [hA]
    apply List.filter_eq_self.mpr
    intro l hl
    simpa using generatedLines_nonblank t l hl
  rw [parseCsv, hB]
  have hsplit1 : splitOnChar ','
      (joinChar ',' ("Site Name:".data :: trimChars t.siteName :: List.replicate 13 ([] : PStr)))
      = "Site Name:".data :: trimChars t.siteName :: List.replicate 13 [] := by
    refine splitOnChar_joinChar ',' _ (by simp) ?_
    intro l hl
    rcases List.mem_cons.mp hl with rfl | hl2
    · decide
    rcases List.mem_cons.mp hl2 with rfl | hl3
    · rw [hsiteSpec.2]
      exact clean_no_comma hsiteSpec.1
    · rw [List.eq_of_mem_replicate hl3]
      exact List.not_mem_nil ','
  have hsplit2 : splitOnChar ','
      (joinChar ',' ("Date:".data :: trimChars t.siteDate :: List.replicate 13 ([] : PStr)))
      = "Date:".data :: trimChars t.siteDate :: List.replicate 13 [] := by
    refine splitOnChar_joinChar ',' _ (by simp) ?_
    intro l hl
    rcases List.mem_cons.mp hl with rfl | hl2
    · decide
    rcases List.mem_cons.mp hl2 with rfl | hl3
    · rw [hdateSpec.2]
      exact clean_no_comma hdateSpec.1
    · rw [List.eq_of_mem_replicate hl3]
      exact List.not_mem_nil ','
  have hpos : 1 ≤ t.rows.length := List.length_pos.mpr hne
  rw [generatedLines, parseCsvLines]
  rw [if_neg (by simp only [List.length_cons, dataLines_length]; omega)]
  simp only [List.getD_cons_zero, List.getD_cons_succ, hsplit1, hsplit2,
    List.drop_succ_cons, List.drop_zero]
  show some (ParsedSheet.mk (trimChars (trimChars t.siteName)) (trimChars (trimChars t.siteDate))
      ((dataLines 1 t.rows).filterMap parseRow)) =
    some (ParsedSheet.mk t.siteName t.siteDate (expectedRows 1 t.rows))
  rw [filterMap_parseRow_dataLines 1 t.rows hrows, hsiteSpec.2, hsiteSpec.2,
    hdateSpec.2, hdateSpec.2]

/-- Witness for C8 (amended) at a concrete one-row table: all hypotheses are
decided and the round trip reproduces the table exactly. -/
theorem csv_export_import_roundtrip_witness :
    (csvTableExample.rows ≠ [] ∧ cleanField csvTableExample.siteName = true ∧
     cleanField csvTableExample.siteDate = true ∧ ∀ r ∈ csvTableExample.rows, rowClean r) ∧
    parseCsv (generateCsvData csvTableExample) =
      some { siteName := csvTableExample.siteName, siteDate := csvTableExample.siteDate,
             rows := expectedRows 1 csvTableExample.rows } :=
  ⟨⟨by decide, by decide, by decide, by decide⟩,
   csv_export_import_roundtrip csvTableExample (by decide) (by decide) (by decide) (by decide)⟩

/-- Counterexample to C8 as stated: the one-row table whose channel name is
" Hall" — printable, comma-free, scenes two-digit zero-padded, within the
claimed domain — does not round-trip: `parse_csv` strips every cell, so the
imported name is "Hall", not the original " Hall". -/
theorem csv_roundtrip_strips_leading_space :
    (parseCsv (generateCsvData csvTableSpacey)).map
        (fun p => (p.rows.getD 0 (ParsedRow.mk [] [] [] [] [] [])).name) = some "Hall".data ∧
    (csvTableSpacey.rows.getD 0 (RowData.mk [] [] [] [] [])).name = " Hall".data ∧
    " Hall".data ≠ "Hall".data := by
  refine ⟨by decide, by decide, by decide⟩
